import Mathlib

/-!
Verification of the NCC report pipeline: a shallow embedding of the
table-extraction and merge routine (merge_tables.py, process_excel_tables)
and of the numeric coercion used by the insight aggregator
(calculate_insights.py, load_merged_data), with theorems settling the
specified properties.
-/

namespace NCC

/-- Cell values of the raw spreadsheet grid: a numeric value, a text value,
or a missing value (the NaN produced by the sheet reader for blank cells). -/
inductive Cell where
  | num : Int → Cell
  | str : String → Cell
  | na  : Cell
deriving DecidableEq

abbrev Row := List Cell

abbrev Grid := List Row

/-- Whitespace characters removed by the Python str.strip method. -/
def isSpaceChar (c : Char) : Bool :=
  c == ' ' || c == '\t' || c == '\n' || c == '\r'

/-- Model of Python str.strip: remove leading and trailing whitespace. -/
def pyStrip (s : String) : String :=
  String.mk (((s.data.dropWhile isSpaceChar).reverse.dropWhile isSpaceChar).reverse)

/-- Model of the Python stringification applied by pandas astype(str): text
is kept verbatim, numbers are stringified, missing values print as nan. -/
def cellStr : Cell → String
  | .num q => toString q
  | .str s => s
  | .na => "nan"

/-- A grid row matches the header marker when the trimmed string form of its
first cell equals the marker (merge_tables.py line 39). -/
def rowMatches (m : String) (r : Row) : Bool :=
  pyStrip (cellStr (r.headD .na)) == m

/-- Indices, counted from i upward, of the rows whose first-column value
matches the marker; embeds the header_rows computation of merge_tables.py
line 39. -/
def markerIdxFrom (m : String) : Nat → Grid → List Nat
  | _, [] => []
  | i, r :: rs =>
    if rowMatches m r then i :: markerIdxFrom m (i+1) rs
    else markerIdxFrom m (i+1) rs

/-- The list of marker-row indices of a grid, in increasing order. -/
def markerIndices (g : Grid) (m : String) : List Nat :=
  markerIdxFrom m 0 g

/-- Whether a cell is missing (NaN). -/
def cellIsNA : Cell → Bool
  | .na => true
  | _ => false

/-- clean_df (merge_tables.py lines 3-16): drop the rows whose cells are all
missing; the index reset is implicit in the list representation. -/
def cleanRows (rs : List Row) : List Row :=
  rs.filter (fun r => !(r.all cellIsNA))

/-- Rows of the first extracted table: strictly between the first and second
marker rows (merge_tables.py line 48). -/
def segA (g : Grid) (i1 i2 : Nat) : List Row :=
  (g.drop (i1+1)).take (i2 - i1 - 1)

/-- Rows of the second extracted table: strictly after the second marker row,
to the end of the grid (merge_tables.py line 53). -/
def segB (g : Grid) (i2 : Nat) : List Row :=
  g.drop (i2+1)

/-- Header row: the row at the first marker index (merge_tables.py line 45). -/
def headerOf (g : Grid) (i1 : Nat) : Row :=
  (g.get? i1).getD []

/-- The concatenation of the two cleaned segments, before sequence
renumbering (merge_tables.py line 62, pd.concat with ignore_index). -/
def preMerge (g : Grid) (i1 i2 : Nat) : List Row :=
  cleanRows (segA g i1 i2) ++ cleanRows (segB g i2)

/-- Overwrite the cells of one row that sit under a column labelled S/N;
pandas column assignment writes the value to every column carrying the
label. -/
def setSNRow : List Cell → Row → Cell → Row
  | _, [], _ => []
  | [], r, _ => r
  | h :: hs, c :: cs, v => (if h = Cell.str "S/N" then v else c) :: setSNRow hs cs v

/-- Renumber rows starting at index i: the row at offset k receives the
sequence value i+k+1 (merge_tables.py line 66, range starting at 1). -/
def renumFrom (hs : List Cell) : Nat → List Row → List Row
  | _, [] => []
  | i, r :: rs => setSNRow hs r (Cell.num (i+1)) :: renumFrom hs (i+1) rs

/-- Renumbering step (merge_tables.py lines 65-66): applied exactly when some
column is literally labelled S/N. -/
def renumberSN (hs : List Cell) (rows : List Row) : List Row :=
  if Cell.str "S/N" ∈ hs then renumFrom hs 0 rows else rows

/-- Failures raised by process_excel_tables, with the data carried by the
corresponding ValueError message. The insufficient-headers error reports the
marker string and the number of marker rows found (merge_tables.py line 42);
the empty-tables error (line 59) carries no indication of which of the two
tables was empty. -/
inductive Err where
  | insufficientHeaders : String → Nat → Err
  | emptyTables : Err
deriving DecidableEq

/-- The merged output table: the shared header plus the merged data rows. -/
structure MergedTable where
  header : Row
  rows : List Row
deriving DecidableEq

deriving instance DecidableEq for Except

/-- The split-clean-merge body of process_excel_tables (merge_tables.py
lines 44-68), given the first two marker indices: extract and clean both
tables, fail if one is empty, otherwise concatenate and renumber. -/
def splitMerge (g : Grid) (i1 i2 : Nat) : Except Err MergedTable :=
  if (cleanRows (segA g i1 i2)).isEmpty || (cleanRows (segB g i2)).isEmpty then
    .error .emptyTables
  else
    .ok ⟨headerOf g i1, renumberSN (headerOf g i1) (preMerge g i1 i2)⟩

/-- process_excel_tables (merge_tables.py lines 18-72) minus the file I/O:
find the marker rows, fail if fewer than two, then split at the first two
marker indices and merge. -/
def processTables (g : Grid) (m : String) : Except Err MergedTable :=
  match markerIndices g m with
  | i1 :: i2 :: _ => splitMerge g i1 i2
  | l => .error (.insufficientHeaders m l.length)

/-- Value of a nonempty all-digit character list, as a natural number. -/
def digitsToNat? (cs : List Char) : Option Nat :=
  if !cs.isEmpty && cs.all Char.isDigit then
    some (cs.foldl (fun a c => a * 10 + (c.toNat - 48)) 0)
  else none

/-- Model of the numeric-literal parsing performed by pd.to_numeric on
strings: optional sign, then digits with an optional decimal point; anything
else fails to parse. -/
def parseNum? (s : String) : Option Rat :=
  let cs := (pyStrip s).data
  let signed : Bool × List Char :=
    match cs with
    | '-' :: rest => (true, rest)
    | '+' :: rest => (false, rest)
    | _ => (false, cs)
  let intPart := signed.2.takeWhile (fun c => c != '.')
  let rest := signed.2.dropWhile (fun c => c != '.')
  let mag : Option Rat :=
    match rest with
    | [] => (digitsToNat? intPart).map (fun n => (n : Rat))
    | _ :: frac =>
      if frac.all (fun c => c != '.') then
        match intPart, frac with
        | [], [] => none
        | [], f => (digitsToNat? f).map (fun n => (n : Rat) / (10 : Rat) ^ f.length)
        | w, [] => (digitsToNat? w).map (fun n => (n : Rat))
        | w, f =>
          match digitsToNat? w, digitsToNat? f with
          | some wn, some fn => some ((wn : Rat) + (fn : Rat) / (10 : Rat) ^ f.length)
          | _, _ => none
      else none
  mag.map (fun q => if signed.1 then -q else q)

/-- pd.to_numeric with coercion of errors (calculate_insights.py line 19):
numbers pass through, strings are parsed as numeric literals, and every
non-numeric value becomes missing. -/
def toNumeric : Cell → Option Rat
  | .num i => some (i : Rat)
  | .str s => parseNum? s
  | .na => none

/-- The numeric entries of the bandwidth column after coercion. -/
def numericVals (col : List Cell) : List Rat :=
  col.filterMap toNumeric

/-- pandas Series.sum over the coerced column: missing entries are skipped
(calculate_insights.py lines 30-50). -/
def bandSum (col : List Cell) : Rat :=
  (numericVals col).sum

/-- pandas Series.mean over the coerced column: missing entries are skipped,
and an all-missing column has no mean (calculate_insights.py line 43). -/
def bandMean (col : List Cell) : Option Rat :=
  let v := numericVals col
  if v.isEmpty then none else some (v.sum / (v.length : Rat))

/-- Row count as used by aggregates that do not depend on the bandwidth
value, such as the shape-based counts of the dashboard. -/
def bandCount (col : List Cell) : Nat :=
  col.length

/-! ### Properties of the marker scan -/

theorem markerIdxFrom_bounds {m : String} {j : Nat} :
    ∀ (g : Grid) (i : Nat), j ∈ markerIdxFrom m i g → i ≤ j ∧ j < i + g.length := by
  intro g
  induction g with
  | nil => intro i h; simp [markerIdxFrom] at h
  | cons r rs ih =>
    intro i h
    simp only [markerIdxFrom] at h
    split at h
    · rcases List.mem_cons.mp h with h1 | h1
      · subst h1; simp only [List.length_cons]; omega
      · have h2 := ih (i+1) h1
        simp only [List.length_cons]; omega
    · have h2 := ih (i+1) h
      simp only [List.length_cons]; omega

theorem markerIdxFrom_sorted (m : String) :
    ∀ (g : Grid) (i : Nat), List.Pairwise (· < ·) (markerIdxFrom m i g) := by
  intro g
  induction g with
  | nil => intro i; simp [markerIdxFrom]
  | cons r rs ih =>
    intro i
    simp only [markerIdxFrom]
    split
    · exact List.Pairwise.cons
        (fun j hj => by have := markerIdxFrom_bounds rs (i+1) hj; omega)
        (ih (i+1))
    · exact ih (i+1)

theorem markerIdxFrom_append (m : String) :
    ∀ (a b : Grid) (i : Nat),
      markerIdxFrom m i (a ++ b) =
        markerIdxFrom m i a ++ markerIdxFrom m (i + a.length) b := by
  intro a
  induction a with
  | nil => intro b i; simp [markerIdxFrom]
  | cons r rs ih =>
    intro b i
    simp only [List.cons_append, markerIdxFrom, List.length_cons, List.append_eq]
    have harith : i + 1 + rs.length = i + (rs.length + 1) := by omega
    split
    · rw [ih b (i+1), harith]; rfl
    · rw [ih b (i+1), harith]

theorem markerIdxFrom_eq_nil {m : String} :
    ∀ (a : Grid) (i : Nat), (∀ r ∈ a, rowMatches m r = false) → markerIdxFrom m i a = [] := by
  intro a
  induction a with
  | nil => intro i _; rfl
  | cons r rs ih =>
    intro i h
    simp only [markerIdxFrom]
    rw [h r (List.mem_cons_self r rs)]
    simp only [Bool.false_eq_true, if_false]
    exact ih (i+1) (fun x hx => h x (List.mem_cons_of_mem r hx))

theorem markerIdxFrom_add (m : String) :
    ∀ (g : Grid) (k i : Nat),
      markerIdxFrom m (k + i) g = (markerIdxFrom m k g).map (· + i) := by
  intro g
  induction g with
  | nil => intro k i; rfl
  | cons r rs ih =>
    intro k i
    simp only [markerIdxFrom]
    have harith : k + i + 1 = (k + 1) + i := by omega
    split
    · rw [List.map_cons, harith, ih (k+1) i]
    · rw [harith, ih (k+1) i]

/-- The first two marker indices are ordered and in range, and the remaining
marker indices all lie strictly beyond the second, within the grid. -/
theorem markerIndices_two {g : Grid} {m : String} {i1 i2 : Nat} {rest : List Nat}
    (h : markerIndices g m = i1 :: i2 :: rest) :
    i1 < i2 ∧ i2 < g.length ∧ ∀ j ∈ rest, i2 < j ∧ j < g.length := by
  have hs := markerIdxFrom_sorted m g 0
  have hb : ∀ j ∈ markerIdxFrom m 0 g, j < g.length := by
    intro j hj
    have := markerIdxFrom_bounds g 0 hj
    omega
  rw [markerIndices] at h
  rw [h] at hs hb
  rcases List.pairwise_cons.mp hs with ⟨h12, hs2⟩
  rcases List.pairwise_cons.mp hs2 with ⟨h2r, _⟩
  refine ⟨h12 i2 (List.mem_cons_self i2 rest), hb i2 (by simp), ?_⟩
  intro j hj
  exact ⟨h2r j hj, hb j (by simp [hj])⟩

/-! ### Properties of the segments and of the renumbering step -/

theorem segA_length {g : Grid} {i1 i2 : Nat} (h1 : i1 < i2) (h2 : i2 ≤ g.length) :
    (segA g i1 i2).length = i2 - i1 - 1 := by
  simp only [segA, List.length_take, List.length_drop]
  omega

theorem segB_length (g : Grid) (i2 : Nat) : (segB g i2).length = g.length - (i2 + 1) := by
  simp [segB]

theorem segA_get? (g : Grid) {i1 i2 k : Nat} (hk : k < i2 - i1 - 1) :
    (segA g i1 i2).get? k = g.get? (i1 + 1 + k) := by
  simp [segA, List.getElem?_take_of_lt hk, List.getElem?_drop]

theorem segB_get? (g : Grid) (i2 k : Nat) : (segB g i2).get? k = g.get? (i2 + 1 + k) := by
  simp [segB, List.getElem?_drop]

theorem headerOf_get? {g : Grid} {i1 : Nat} (h : i1 < g.length) :
    g.get? i1 = some (headerOf g i1) := by
  rcases hg : g.get? i1 with _ | r
  · rw [List.get?_eq_getElem?, List.getElem?_eq_none_iff] at hg
    omega
  · rw [headerOf, hg]
    rfl

theorem headerOf_mem {g : Grid} {i1 : Nat} (h : i1 < g.length) : headerOf g i1 ∈ g :=
  List.get?_mem (headerOf_get? h)

theorem setSNRow_length (hs : List Cell) (r : Row) (v : Cell) :
    (setSNRow hs r v).length = r.length := by
  induction hs generalizing r with
  | nil => cases r <;> simp [setSNRow]
  | cons h t ih =>
    cases r with
    | nil => simp [setSNRow]
    | cons c cs => simp [setSNRow, ih]

theorem setSNRow_get? (hs : List Cell) (r : Row) (v : Cell) (j : Nat) :
    (setSNRow hs r v).get? j =
      (r.get? j).map (fun c => if hs.get? j = some (Cell.str "S/N") then v else c) := by
  induction hs generalizing r j with
  | nil =>
    cases r with
    | nil => simp [setSNRow]
    | cons c cs => cases j <;> simp [setSNRow]
  | cons h t ih =>
    cases r with
    | nil => simp [setSNRow]
    | cons c cs =>
      cases j with
      | zero => simp [setSNRow]
      | succ j => simpa [setSNRow] using ih cs j

theorem renumFrom_length (hs : List Cell) :
    ∀ (rs : List Row) (i : Nat), (renumFrom hs i rs).length = rs.length := by
  intro rs
  induction rs with
  | nil => intro i; rfl
  | cons r t ih => intro i; simp [renumFrom, ih]

theorem renumFrom_get? (hs : List Cell) :
    ∀ (rs : List Row) (i k : Nat),
      (renumFrom hs i rs).get? k =
        (rs.get? k).map (fun r => setSNRow hs r (Cell.num (i + k + 1))) := by
  intro rs
  induction rs with
  | nil => intro i k; simp [renumFrom]
  | cons r t ih =>
    intro i k
    cases k with
    | zero => simp [renumFrom]
    | succ k =>
      simp only [renumFrom, List.get?_cons_succ, ih (i+1) k]
      congr 1
      funext r
      congr 2
      omega

theorem renumFrom_mem_length {hs : List Cell} :
    ∀ {rs : List Row} {i : Nat} {r : Row}, r ∈ renumFrom hs i rs →
      ∃ r2 ∈ rs, r.length = r2.length := by
  intro rs
  induction rs with
  | nil => intro i r h; simp [renumFrom] at h
  | cons x t ih =>
    intro i r h
    rcases List.mem_cons.mp h with h1 | h1
    · exact ⟨x, List.mem_cons_self x t, by rw [h1, setSNRow_length]⟩
    · rcases ih h1 with ⟨r2, hr2, hlen⟩
      exact ⟨r2, List.mem_cons_of_mem x hr2, hlen⟩

theorem renumberSN_get? (hs : List Cell) (rows : List Row) (k : Nat) :
    (renumberSN hs rows).get? k =
      (rows.get? k).map
        (fun r => if Cell.str "S/N" ∈ hs then setSNRow hs r (Cell.num (k + 1)) else r) := by
  rw [renumberSN]
  split
  · next hmem =>
    rw [renumFrom_get? hs rows 0 k]
    simp [hmem]
  · next hmem =>
    cases rows.get? k <;> simp [hmem]

theorem renumberSN_length (hs : List Cell) (rows : List Row) :
    (renumberSN hs rows).length = rows.length := by
  rw [renumberSN]
  split
  · rw [renumFrom_length]
  · rfl

/-! ### Inversion principles for processTables -/

theorem splitMerge_ok {g : Grid} {i1 i2 : Nat} {t : MergedTable}
    (h : splitMerge g i1 i2 = .ok t) :
    cleanRows (segA g i1 i2) ≠ [] ∧ cleanRows (segB g i2) ≠ [] ∧
      t.header = headerOf g i1 ∧
      t.rows = renumberSN (headerOf g i1) (preMerge g i1 i2) := by
  unfold splitMerge at h
  split at h
  · exact absurd h (by simp)
  · next hne =>
    rw [Bool.or_eq_true, not_or] at hne
    injection h with h
    refine ⟨?_, ?_, ?_, ?_⟩
    · simpa [List.isEmpty_iff] using hne.1
    · simpa [List.isEmpty_iff] using hne.2
    · rw [← h]
    · rw [← h]

theorem processTables_ok {g : Grid} {m : String} {t : MergedTable}
    (h : processTables g m = .ok t) :
    ∃ i1 i2 rest, markerIndices g m = i1 :: i2 :: rest ∧
      cleanRows (segA g i1 i2) ≠ [] ∧ cleanRows (segB g i2) ≠ [] ∧
      t.header = headerOf g i1 ∧
      t.rows = renumberSN (headerOf g i1) (preMerge g i1 i2) := by
  unfold processTables at h
  split at h
  · next i1 i2 rest heq =>
    rcases splitMerge_ok h with ⟨h1, h2, h3, h4⟩
    exact ⟨i1, i2, rest, heq, h1, h2, h3, h4⟩
  · exact absurd h (by simp)

/-- Every row of the concatenated cleaned segments is a row of the grid. -/
theorem preMerge_subset {g : Grid} {i1 i2 : Nat} {r : Row} (hr : r ∈ preMerge g i1 i2) :
    r ∈ g := by
  rcases List.mem_append.mp hr with h | h
  · have h1 : r ∈ segA g i1 i2 := List.mem_of_mem_filter h
    exact List.mem_of_mem_drop (List.mem_of_mem_take h1)
  · exact List.mem_of_mem_drop (List.mem_of_mem_filter h)

/-! ### The claims -/

/-- Claim C1: for every grid in which fewer than two rows have a trimmed,
stringified first-column value equal to the marker, processing fails with
the insufficient-headers error, which reports the marker string and the
count of marker rows actually found, and no partial result is returned. -/
theorem claim1_insufficient_headers (g : Grid) (m : String)
    (h : (markerIndices g m).length < 2) :
    processTables g m = .error (.insufficientHeaders m (markerIndices g m).length) := by
  unfold processTables
  split
  · next i1 i2 rest heq =>
    rw [heq] at h
    simp at h
    omega
  · rfl

/-- Witness for claim C1 at a concrete one-marker grid. -/
theorem claim1_witness :
    (markerIndices [[Cell.str "x"], [Cell.str "S/N"], [Cell.str "y"]] "S/N").length < 2 ∧
      processTables [[Cell.str "x"], [Cell.str "S/N"], [Cell.str "y"]] "S/N" =
        .error (.insufficientHeaders "S/N"
          (markerIndices [[Cell.str "x"], [Cell.str "S/N"], [Cell.str "y"]] "S/N").length) :=
  ⟨by decide, claim1_insufficient_headers _ _ (by decide)⟩

/-- Claim C2 as stated is refuted: this grid has exactly two marker rows, at
indices 1 and 2, yet the two extracted segments together hold 0 rows while
the grid has 3, so the combined pre-cleaning row count is not the total row
count minus 2 (the row ahead of the first marker is also discarded). -/
theorem claim2_counterexample :
    markerIndices [[Cell.str "x"], [Cell.str "S/N"], [Cell.str "S/N"]] "S/N" = [1, 2] ∧
      ¬ ((segA [[Cell.str "x"], [Cell.str "S/N"], [Cell.str "S/N"]] 1 2).length +
           (segB [[Cell.str "x"], [Cell.str "S/N"], [Cell.str "S/N"]] 2).length =
         ([[Cell.str "x"], [Cell.str "S/N"], [Cell.str "S/N"]] : Grid).length - 2) := by
  decide

/-- Claim C2 amended: for every grid with exactly two marker rows, the two
segments together hold total-rows minus 2 minus i1 rows, where i1 is the
index of the first marker row; this is total minus 2 exactly when the first
marker is the first row of the grid. -/
theorem claim2_segment_count (g : Grid) (m : String) (i1 i2 : Nat)
    (h : markerIndices g m = [i1, i2]) :
    (segA g i1 i2).length + (segB g i2).length = g.length - 2 - i1 := by
  rcases markerIndices_two h with ⟨h12, h2len, _⟩
  rw [segA_length h12 (le_of_lt h2len), segB_length]
  omega

/-- Witness for the amended claim C2 at a concrete grid: markers at rows 0
and 3, five rows in total, combined segment row count 2 + 1 = 5 - 2 - 0. -/
theorem claim2_witness :
    markerIndices [[Cell.str "S/N"], [Cell.str "a"], [Cell.str "b"],
        [Cell.str "S/N"], [Cell.str "c"]] "S/N" = [0, 3] ∧
      (segA [[Cell.str "S/N"], [Cell.str "a"], [Cell.str "b"],
          [Cell.str "S/N"], [Cell.str "c"]] 0 3).length +
        (segB [[Cell.str "S/N"], [Cell.str "a"], [Cell.str "b"],
          [Cell.str "S/N"], [Cell.str "c"]] 3).length =
      ([[Cell.str "S/N"], [Cell.str "a"], [Cell.str "b"],
        [Cell.str "S/N"], [Cell.str "c"]] : Grid).length - 2 - 0 :=
  ⟨by decide, claim2_segment_count _ "S/N" 0 3 (by decide)⟩

/-- Claim C3 as stated is refuted: the first grid cleans segment A to zero
rows, the second cleans segment B to zero rows, and both fail with the very
same error value, whose single ValueError message (one or both extracted
tables are empty) carries no indication of which segment was empty, so the
error does not name the empty side. -/
theorem claim3_counterexample :
    processTables [[Cell.str "S/N"], [Cell.str "S/N"], [Cell.str "d"]] "S/N" =
        .error .emptyTables ∧
      processTables [[Cell.str "S/N"], [Cell.str "d"], [Cell.str "S/N"]] "S/N" =
        .error .emptyTables ∧
      processTables [[Cell.str "S/N"], [Cell.str "S/N"], [Cell.str "d"]] "S/N" =
        processTables [[Cell.str "S/N"], [Cell.str "d"], [Cell.str "S/N"]] "S/N" := by
  decide

/-- Claim C3 amended: if either segment cleans to zero rows, processing
fails with the single empty-tables error, which does not name the empty
segment, and no merged table is produced. -/
theorem claim3_empty_segment (g : Grid) (m : String) (i1 i2 : Nat) (rest : List Nat)
    (hm : markerIndices g m = i1 :: i2 :: rest)
    (he : cleanRows (segA g i1 i2) = [] ∨ cleanRows (segB g i2) = []) :
    processTables g m = .error .emptyTables := by
  unfold processTables
  rw [hm]
  show splitMerge g i1 i2 = .error .emptyTables
  unfold splitMerge
  rcases he with he | he <;> simp [he]

/-- Witness for the amended claim C3: two markers, but segment B holds only
a fully-missing row, so it cleans to zero rows and processing fails. -/
theorem claim3_witness :
    processTables [[Cell.str "S/N"], [Cell.str "d"], [Cell.str "S/N"], [Cell.na]] "S/N" =
      .error .emptyTables :=
  claim3_empty_segment _ "S/N" 0 2 [] (by decide) (Or.inr (by decide))

/-- Claim C6: with at least two marker rows, segment A consists exactly of
the rows strictly between the first two marker indices, segment B of all
rows strictly after the second marker index to the end of the grid, and any
marker occurrence beyond the second lies strictly after the second marker,
its row falling inside the data of segment B. -/
theorem claim6_split_boundaries (g : Grid) (m : String) (i1 i2 : Nat) (rest : List Nat)
    (h : markerIndices g m = i1 :: i2 :: rest) :
    ((segA g i1 i2).length = i2 - i1 - 1 ∧
      ∀ k, k < i2 - i1 - 1 → (segA g i1 i2).get? k = g.get? (i1 + 1 + k)) ∧
    ((segB g i2).length = g.length - (i2 + 1) ∧
      ∀ k, (segB g i2).get? k = g.get? (i2 + 1 + k)) ∧
    (∀ j ∈ rest, i2 < j ∧
      ∃ r, g.get? j = some r ∧ (segB g i2).get? (j - (i2 + 1)) = some r) := by
  rcases markerIndices_two h with ⟨h12, h2len, hrest⟩
  refine ⟨⟨segA_length h12 (le_of_lt h2len), fun k hk => segA_get? g hk⟩,
    ⟨segB_length g i2, fun k => segB_get? g i2 k⟩, ?_⟩
  intro j hj
  rcases hrest j hj with ⟨hj2, hjlen⟩
  refine ⟨hj2, ?_⟩
  rcases hr : g.get? j with _ | r
  · rw [List.get?_eq_getElem?, List.getElem?_eq_none_iff] at hr
    omega
  · refine ⟨r, rfl, ?_⟩
    rw [segB_get? g i2 (j - (i2 + 1))]
    have harith : i2 + 1 + (j - (i2 + 1)) = j := by omega
    rw [harith, hr]

/-- Witness for claim C6 at a grid with three marker rows, at indices 0, 2
and 4: the third marker row lands inside segment B. -/
theorem claim6_witness :
    ((segA [[Cell.str "S/N"], [Cell.str "a"], [Cell.str "S/N"], [Cell.str "b"],
        [Cell.str "S/N"], [Cell.str "c"]] 0 2).length = 2 - 0 - 1 ∧
      ∀ k, k < 2 - 0 - 1 →
        (segA [[Cell.str "S/N"], [Cell.str "a"], [Cell.str "S/N"], [Cell.str "b"],
          [Cell.str "S/N"], [Cell.str "c"]] 0 2).get? k =
        ([[Cell.str "S/N"], [Cell.str "a"], [Cell.str "S/N"], [Cell.str "b"],
          [Cell.str "S/N"], [Cell.str "c"]] : Grid).get? (0 + 1 + k)) ∧
    ((segB [[Cell.str "S/N"], [Cell.str "a"], [Cell.str "S/N"], [Cell.str "b"],
        [Cell.str "S/N"], [Cell.str "c"]] 2).length =
      ([[Cell.str "S/N"], [Cell.str "a"], [Cell.str "S/N"], [Cell.str "b"],
        [Cell.str "S/N"], [Cell.str "c"]] : Grid).length - (2 + 1) ∧
      ∀ k, (segB [[Cell.str "S/N"], [Cell.str "a"], [Cell.str "S/N"], [Cell.str "b"],
          [Cell.str "S/N"], [Cell.str "c"]] 2).get? k =
        ([[Cell.str "S/N"], [Cell.str "a"], [Cell.str "S/N"], [Cell.str "b"],
          [Cell.str "S/N"], [Cell.str "c"]] : Grid).get? (2 + 1 + k)) ∧
    (∀ j ∈ [4], 2 < j ∧
      ∃ r, ([[Cell.str "S/N"], [Cell.str "a"], [Cell.str "S/N"], [Cell.str "b"],
          [Cell.str "S/N"], [Cell.str "c"]] : Grid).get? j = some r ∧
        (segB [[Cell.str "S/N"], [Cell.str "a"], [Cell.str "S/N"], [Cell.str "b"],
          [Cell.str "S/N"], [Cell.str "c"]] 2).get? (j - (2 + 1)) = some r) :=
  claim6_split_boundaries _ "S/N" 0 2 [4] (by decide)

/-- A position holding a value is within the list. -/
theorem get?_some_lt {α : Type} {l : List α} {j : Nat} {a : α} (h : l.get? j = some a) :
    j < l.length := by
  by_contra hc
  rw [List.get?_eq_getElem?, List.getElem?_eq_none (by omega)] at h
  cases h

/-- Characterization of the renumbering in a successful merge on a
rectangular grid: a column position labelled S/N holds the sequence value
i+1 in every merged row i, and when no column is labelled S/N the merged
rows are exactly the concatenated cleaned segments. -/
theorem merged_renumber_char {g : Grid} {m : String} {w : Nat} {t : MergedTable}
    (hrect : ∀ r ∈ g, r.length = w) (h : processTables g m = .ok t) :
    (∀ j, t.header.get? j = some (Cell.str "S/N") →
      ∀ i r, t.rows.get? i = some r → r.get? j = some (Cell.num (i + 1))) ∧
    (Cell.str "S/N" ∉ t.header →
      ∃ i1 i2 rest, markerIndices g m = i1 :: i2 :: rest ∧ t.rows = preMerge g i1 i2) := by
  rcases processTables_ok h with ⟨i1, i2, rest, hm, hA, hB, hhd, hrows⟩
  rcases markerIndices_two hm with ⟨h12, h2len, _⟩
  have hhdw : (headerOf g i1).length = w := hrect _ (headerOf_mem (lt_trans h12 h2len))
  constructor
  · intro j hj i r hir
    rw [hhd] at hj
    have hmem : Cell.str "S/N" ∈ headerOf g i1 := List.get?_mem hj
    have hjlt : j < (headerOf g i1).length := get?_some_lt hj
    rw [hrows, renumberSN_get?] at hir
    rcases hpm : (preMerge g i1 i2).get? i with _ | r0
    · rw [hpm] at hir
      cases hir
    · rw [hpm] at hir
      simp only [Option.map_some', if_pos hmem] at hir
      injection hir with hir
      rw [← hir, setSNRow_get?]
      have hr0w : r0.length = w := hrect _ (preMerge_subset (List.get?_mem hpm))
      rcases hr0 : r0.get? j with _ | c0
      · rw [List.get?_eq_getElem?, List.getElem?_eq_none_iff] at hr0
        omega
      · simp only [Option.map_some', if_pos hj]
  · intro hnot
    rw [hhd] at hnot
    refine ⟨i1, i2, rest, hm, ?_⟩
    rw [hrows, renumberSN, if_neg hnot]

/-- Claim C4 as stated is refuted at a concrete rectangular grid: the merge
succeeds, the header has 2 columns, every merged row has 2 cells, not 2 + 1,
and no row carries a Corporate or Retail origin value. -/
theorem claim4_counterexample :
    processTables [[Cell.str "M", Cell.str "H"], [Cell.str "a", Cell.str "b"],
        [Cell.str "M", Cell.str "H"], [Cell.str "c", Cell.str "d"]] "M" =
      .ok ⟨[Cell.str "M", Cell.str "H"],
        [[Cell.str "a", Cell.str "b"], [Cell.str "c", Cell.str "d"]]⟩ ∧
    ([Cell.str "M", Cell.str "H"] : Row).length = 2 ∧
    ¬ (∀ r ∈ [[Cell.str "a", Cell.str "b"], [Cell.str "c", Cell.str "d"]],
        List.length r = 2 + 1) ∧
    (∀ r ∈ [[Cell.str "a", Cell.str "b"], [Cell.str "c", Cell.str "d"]],
      Cell.str "Corporate" ∉ r ∧ Cell.str "Retail" ∉ r) := by
  decide

/-- Claim C4 amended: the merge routine attaches no origin value; for every
successful merge of a rectangular grid of width w, the merged header has w
columns and every merged row has exactly w cells, not w + 1. -/
theorem claim4_no_origin_column (g : Grid) (m : String) (w : Nat) (t : MergedTable)
    (hrect : ∀ r ∈ g, r.length = w) (h : processTables g m = .ok t) :
    t.header.length = w ∧ ∀ r ∈ t.rows, r.length = w := by
  rcases processTables_ok h with ⟨i1, i2, rest, hm, hA, hB, hhd, hrows⟩
  rcases markerIndices_two hm with ⟨h12, h2len, _⟩
  have hhdw : (headerOf g i1).length = w := hrect _ (headerOf_mem (lt_trans h12 h2len))
  refine ⟨by rw [hhd, hhdw], ?_⟩
  intro r hr
  rw [hrows, renumberSN] at hr
  split at hr
  · rcases renumFrom_mem_length hr with ⟨r2, hr2, hlen⟩
    rw [hlen]
    exact hrect _ (preMerge_subset hr2)
  · exact hrect _ (preMerge_subset hr)

/-- Witness for the amended claim C4 at a concrete two-column grid. -/
theorem claim4_witness :
    (⟨[Cell.str "M", Cell.str "H"],
        [[Cell.str "a", Cell.str "b"], [Cell.str "c", Cell.str "d"]]⟩ : MergedTable).header.length = 2 ∧
    ∀ r ∈ (⟨[Cell.str "M", Cell.str "H"],
        [[Cell.str "a", Cell.str "b"], [Cell.str "c", Cell.str "d"]]⟩ : MergedTable).rows,
      r.length = 2 :=
  claim4_no_origin_column
    [[Cell.str "M", Cell.str "H"], [Cell.str "a", Cell.str "b"],
      [Cell.str "M", Cell.str "H"], [Cell.str "c", Cell.str "d"]] "M" 2 _
    (by decide) (by decide)

/-- Claim C5: for every successful merge with the default marker on a
rectangular grid, if the header holds the sequence-column name S/N then that
column of the N merged rows holds exactly the contiguous ascending integers
1..N, regardless of the values originally present in either segment; if the
header does not hold S/N, the merged rows are exactly the concatenated
cleaned segments, unchanged by the renumbering step. -/
theorem claim5_renumber_sn (g : Grid) (w : Nat) (t : MergedTable)
    (hrect : ∀ r ∈ g, r.length = w) (h : processTables g "S/N" = .ok t) :
    (∀ j, t.header.get? j = some (Cell.str "S/N") →
      ∀ i r, t.rows.get? i = some r → r.get? j = some (Cell.num (i + 1))) ∧
    (Cell.str "S/N" ∉ t.header →
      ∃ i1 i2 rest, markerIndices g "S/N" = i1 :: i2 :: rest ∧
        t.rows = preMerge g i1 i2) :=
  merged_renumber_char hrect h

/-- Witness for claim C5 at a concrete grid whose segments carry stale
sequence values 9 and 7: the merged S/N column reads 1, 2. -/
theorem claim5_witness :
    (∀ j, (MergedTable.mk [Cell.str "S/N", Cell.str "V"]
        [[Cell.num 1, Cell.str "a"], [Cell.num 2, Cell.str "b"]]).header.get? j =
          some (Cell.str "S/N") →
      ∀ i r, (MergedTable.mk [Cell.str "S/N", Cell.str "V"]
          [[Cell.num 1, Cell.str "a"], [Cell.num 2, Cell.str "b"]]).rows.get? i = some r →
        r.get? j = some (Cell.num (i + 1))) ∧
    (Cell.str "S/N" ∉ (MergedTable.mk [Cell.str "S/N", Cell.str "V"]
        [[Cell.num 1, Cell.str "a"], [Cell.num 2, Cell.str "b"]]).header →
      ∃ i1 i2 rest,
        markerIndices [[Cell.str "S/N", Cell.str "V"], [Cell.str "9", Cell.str "a"],
          [Cell.str "S/N", Cell.str "V"], [Cell.str "7", Cell.str "b"]] "S/N" =
          i1 :: i2 :: rest ∧
        (MergedTable.mk [Cell.str "S/N", Cell.str "V"]
          [[Cell.num 1, Cell.str "a"], [Cell.num 2, Cell.str "b"]]).rows =
          preMerge [[Cell.str "S/N", Cell.str "V"], [Cell.str "9", Cell.str "a"],
            [Cell.str "S/N", Cell.str "V"], [Cell.str "7", Cell.str "b"]] i1 i2) :=
  claim5_renumber_sn
    [[Cell.str "S/N", Cell.str "V"], [Cell.str "9", Cell.str "a"],
      [Cell.str "S/N", Cell.str "V"], [Cell.str "7", Cell.str "b"]] 2 _
    (by decide) (by decide)

/-- Claim C10: renumbering is keyed on the literal column name S/N for every
marker argument, not just the default: for every successful merge on a
rectangular grid, with any marker, a column position labelled S/N is
renumbered 1..N, and when no column is literally labelled S/N (for example
because the marker cell carried surrounding whitespace that survives into
the verbatim header) the merged rows are unchanged even though the split
succeeded. -/
theorem claim10_literal_sn (g : Grid) (m : String) (w : Nat) (t : MergedTable)
    (hrect : ∀ r ∈ g, r.length = w) (h : processTables g m = .ok t) :
    (∀ j, t.header.get? j = some (Cell.str "S/N") →
      ∀ i r, t.rows.get? i = some r → r.get? j = some (Cell.num (i + 1))) ∧
    (Cell.str "S/N" ∉ t.header →
      ∃ i1 i2 rest, markerIndices g m = i1 :: i2 :: rest ∧
        t.rows = preMerge g i1 i2) :=
  merged_renumber_char hrect h

/-- Witness for claim C10: first at a non-default marker MRK with an S/N
column, which is still renumbered, then at the default marker with a header
cell that keeps its surrounding whitespace, so the split succeeds but no
column is literally S/N. -/
theorem claim10_witness :
    ((∀ j, (MergedTable.mk [Cell.str "MRK", Cell.str "S/N"]
        [[Cell.str "a", Cell.num 1], [Cell.str "b", Cell.num 2]]).header.get? j =
          some (Cell.str "S/N") →
      ∀ i r, (MergedTable.mk [Cell.str "MRK", Cell.str "S/N"]
          [[Cell.str "a", Cell.num 1], [Cell.str "b", Cell.num 2]]).rows.get? i = some r →
        r.get? j = some (Cell.num (i + 1))) ∧
    (Cell.str "S/N" ∉ (MergedTable.mk [Cell.str "MRK", Cell.str "S/N"]
        [[Cell.str "a", Cell.num 1], [Cell.str "b", Cell.num 2]]).header →
      ∃ i1 i2 rest,
        markerIndices [[Cell.str "MRK", Cell.str "S/N"], [Cell.str "a", Cell.str "9"],
          [Cell.str "MRK", Cell.str "S/N"], [Cell.str "b", Cell.str "7"]] "MRK" =
          i1 :: i2 :: rest ∧
        (MergedTable.mk [Cell.str "MRK", Cell.str "S/N"]
          [[Cell.str "a", Cell.num 1], [Cell.str "b", Cell.num 2]]).rows =
          preMerge [[Cell.str "MRK", Cell.str "S/N"], [Cell.str "a", Cell.str "9"],
            [Cell.str "MRK", Cell.str "S/N"], [Cell.str "b", Cell.str "7"]] i1 i2)) ∧
    ((∀ j, (MergedTable.mk [Cell.str " S/N "]
        [[Cell.str "a"], [Cell.str "b"]]).header.get? j = some (Cell.str "S/N") →
      ∀ i r, (MergedTable.mk [Cell.str " S/N "]
          [[Cell.str "a"], [Cell.str "b"]]).rows.get? i = some r →
        r.get? j = some (Cell.num (i + 1))) ∧
    (Cell.str "S/N" ∉ (MergedTable.mk [Cell.str " S/N "]
        [[Cell.str "a"], [Cell.str "b"]]).header →
      ∃ i1 i2 rest,
        markerIndices [[Cell.str " S/N "], [Cell.str "a"],
          [Cell.str " S/N "], [Cell.str "b"]] "S/N" = i1 :: i2 :: rest ∧
        (MergedTable.mk [Cell.str " S/N "]
          [[Cell.str "a"], [Cell.str "b"]]).rows =
          preMerge [[Cell.str " S/N "], [Cell.str "a"],
            [Cell.str " S/N "], [Cell.str "b"]] i1 i2)) :=
  ⟨claim10_literal_sn
      [[Cell.str "MRK", Cell.str "S/N"], [Cell.str "a", Cell.str "9"],
        [Cell.str "MRK", Cell.str "S/N"], [Cell.str "b", Cell.str "7"]] "MRK" 2 _
      (by decide) (by decide),
    claim10_literal_sn
      [[Cell.str " S/N "], [Cell.str "a"], [Cell.str " S/N "], [Cell.str "b"]] "S/N" 1 _
      (by decide) (by decide)⟩

/-- Claim C7: the merge is order-preserving. In every successful merge, the
merged row at position i, for i below the cleaned segment A length, derives
from cleaned segment A row i, and the merged row at position lenA + j
derives from cleaned segment B row j (each transformed only by the
positionwise renumbering); hence rows of one segment keep their relative
order and every segment A row precedes every segment B row. -/
theorem claim7_merge_order (g : Grid) (m : String) (t : MergedTable)
    (h : processTables g m = .ok t) :
    ∃ i1 i2 rest, markerIndices g m = i1 :: i2 :: rest ∧
      t.rows.length =
        (cleanRows (segA g i1 i2)).length + (cleanRows (segB g i2)).length ∧
      (∀ i, i < (cleanRows (segA g i1 i2)).length →
        t.rows.get? i = ((cleanRows (segA g i1 i2)).get? i).map
          (fun r => if Cell.str "S/N" ∈ t.header then
            setSNRow t.header r (Cell.num (i + 1)) else r)) ∧
      (∀ j, j < (cleanRows (segB g i2)).length →
        t.rows.get? ((cleanRows (segA g i1 i2)).length + j) =
          ((cleanRows (segB g i2)).get? j).map
            (fun r => if Cell.str "S/N" ∈ t.header then
              setSNRow t.header r
                (Cell.num ((cleanRows (segA g i1 i2)).length + j + 1)) else r)) := by
  rcases processTables_ok h with ⟨i1, i2, rest, hm, hA, hB, hhd, hrows⟩
  refine ⟨i1, i2, rest, hm, ?_, ?_, ?_⟩
  · rw [hrows, renumberSN_length, preMerge, List.length_append]
  · intro i hi
    rw [hrows, hhd, renumberSN_get?]
    congr 1
    rw [preMerge, List.get?_eq_getElem?, List.get?_eq_getElem?,
      List.getElem?_append_left hi]
  · intro j hj
    rw [hrows, hhd, renumberSN_get?]
    have hidx : (preMerge g i1 i2).get? ((cleanRows (segA g i1 i2)).length + j) =
        (cleanRows (segB g i2)).get? j := by
      rw [preMerge, List.get?_eq_getElem?, List.get?_eq_getElem?,
        List.getElem?_append_right (by omega)]
      congr 1
      omega
    rw [hidx]
    have harg : (((cleanRows (segA g i1 i2)).length + j : Nat) : Int) + 1 =
        ((cleanRows (segA g i1 i2)).length : Int) + (j : Int) + 1 := by
      push_cast
      ring
    rw [harg]

/-- Witness for claim C7: merged table with one cleaned row from segment A
and two from segment B, in segment order. -/
theorem claim7_witness :
    ∃ i1 i2 rest,
      markerIndices [[Cell.str "S/N"], [Cell.str "a"], [Cell.str "S/N"],
        [Cell.str "b"], [Cell.str "c"]] "S/N" = i1 :: i2 :: rest ∧
      (MergedTable.mk [Cell.str "S/N"]
          [[Cell.num 1], [Cell.num 2], [Cell.num 3]]).rows.length =
        (cleanRows (segA [[Cell.str "S/N"], [Cell.str "a"], [Cell.str "S/N"],
            [Cell.str "b"], [Cell.str "c"]] i1 i2)).length +
        (cleanRows (segB [[Cell.str "S/N"], [Cell.str "a"], [Cell.str "S/N"],
            [Cell.str "b"], [Cell.str "c"]] i2)).length ∧
      (∀ i, i < (cleanRows (segA [[Cell.str "S/N"], [Cell.str "a"], [Cell.str "S/N"],
            [Cell.str "b"], [Cell.str "c"]] i1 i2)).length →
        (MergedTable.mk [Cell.str "S/N"]
            [[Cell.num 1], [Cell.num 2], [Cell.num 3]]).rows.get? i =
          ((cleanRows (segA [[Cell.str "S/N"], [Cell.str "a"], [Cell.str "S/N"],
              [Cell.str "b"], [Cell.str "c"]] i1 i2)).get? i).map
            (fun r => if Cell.str "S/N" ∈ (MergedTable.mk [Cell.str "S/N"]
                [[Cell.num 1], [Cell.num 2], [Cell.num 3]]).header then
              setSNRow (MergedTable.mk [Cell.str "S/N"]
                [[Cell.num 1], [Cell.num 2], [Cell.num 3]]).header r (Cell.num (i + 1))
            else r)) ∧
      (∀ j, j < (cleanRows (segB [[Cell.str "S/N"], [Cell.str "a"], [Cell.str "S/N"],
            [Cell.str "b"], [Cell.str "c"]] i2)).length →
        (MergedTable.mk [Cell.str "S/N"]
            [[Cell.num 1], [Cell.num 2], [Cell.num 3]]).rows.get?
          ((cleanRows (segA [[Cell.str "S/N"], [Cell.str "a"], [Cell.str "S/N"],
              [Cell.str "b"], [Cell.str "c"]] i1 i2)).length + j) =
          ((cleanRows (segB [[Cell.str "S/N"], [Cell.str "a"], [Cell.str "S/N"],
              [Cell.str "b"], [Cell.str "c"]] i2)).get? j).map
            (fun r => if Cell.str "S/N" ∈ (MergedTable.mk [Cell.str "S/N"]
                [[Cell.num 1], [Cell.num 2], [Cell.num 3]]).header then
              setSNRow (MergedTable.mk [Cell.str "S/N"]
                  [[Cell.num 1], [Cell.num 2], [Cell.num 3]]).header r
                (Cell.num ((cleanRows (segA [[Cell.str "S/N"], [Cell.str "a"],
                    [Cell.str "S/N"], [Cell.str "b"], [Cell.str "c"]] i1 i2)).length
                  + j + 1))
            else r)) :=
  claim7_merge_order
    [[Cell.str "S/N"], [Cell.str "a"], [Cell.str "S/N"], [Cell.str "b"], [Cell.str "c"]]
    "S/N" _ (by decide)

/-- Claim C8: a non-numeric value in the bandwidth column becomes missing
after coercion and contributes nothing to the sum or the mean, while its row
still counts for aggregates not based on the bandwidth value. -/
theorem claim8_nonnumeric_excluded (xs ys : List Cell) (s : String)
    (h : parseNum? s = none) :
    toNumeric (Cell.str s) = none ∧
    bandSum (xs ++ Cell.str s :: ys) = bandSum (xs ++ ys) ∧
    bandMean (xs ++ Cell.str s :: ys) = bandMean (xs ++ ys) ∧
    bandCount (xs ++ Cell.str s :: ys) = bandCount (xs ++ ys) + 1 := by
  have ht : toNumeric (Cell.str s) = none := by simp [toNumeric, h]
  have hv : numericVals (xs ++ Cell.str s :: ys) = numericVals (xs ++ ys) := by
    simp [numericVals, List.filterMap_append, List.filterMap_cons, ht]
  refine ⟨ht, ?_, ?_, ?_⟩
  · rw [bandSum, bandSum, hv]
  · rw [bandMean, bandMean, hv]
  · simp only [bandCount, List.length_append, List.length_cons]
    omega

/-- Witness for claim C8 at the scenario value: bandwidth column 100, N/A,
50 behaves like 100, 50 for sum and mean but counts one more row. -/
theorem claim8_witness :
    toNumeric (Cell.str "N/A") = none ∧
    bandSum ([Cell.num 100] ++ Cell.str "N/A" :: [Cell.num 50]) =
      bandSum ([Cell.num 100] ++ [Cell.num 50]) ∧
    bandMean ([Cell.num 100] ++ Cell.str "N/A" :: [Cell.num 50]) =
      bandMean ([Cell.num 100] ++ [Cell.num 50]) ∧
    bandCount ([Cell.num 100] ++ Cell.str "N/A" :: [Cell.num 50]) =
      bandCount ([Cell.num 100] ++ [Cell.num 50]) + 1 :=
  claim8_nonnumeric_excluded [Cell.num 100] [Cell.num 50] "N/A" (by decide)

/-- Claim C9: rows ahead of the first marker are silently discarded.
Prepending any block of non-marker rows to a grid shifts every marker index
by the length of the block and leaves the result of processing unchanged:
the prefix rows appear in neither segment and never reach the merged
table. -/
theorem claim9_prefix_discarded (pre g : Grid) (m : String)
    (h : ∀ r ∈ pre, rowMatches m r = false) :
    markerIndices (pre ++ g) m = (markerIndices g m).map (· + pre.length) ∧
      processTables (pre ++ g) m = processTables g m := by
  have hmi : markerIndices (pre ++ g) m = (markerIndices g m).map (· + pre.length) := by
    rw [markerIndices, markerIdxFrom_append m pre g 0, markerIdxFrom_eq_nil pre 0 h,
      List.nil_append]
    exact markerIdxFrom_add m g 0 pre.length
  refine ⟨hmi, ?_⟩
  unfold processTables
  rw [hmi]
  rcases hg : markerIndices g m with _ | ⟨i1, tail⟩
  · rfl
  rcases tail with _ | ⟨i2, rest⟩
  · rfl
  · simp only [List.map_cons]
    show splitMerge (pre ++ g) (i1 + pre.length) (i2 + pre.length) = splitMerge g i1 i2
    have hsegA : segA (pre ++ g) (i1 + pre.length) (i2 + pre.length) = segA g i1 i2 := by
      rw [segA, segA]
      have he : i1 + pre.length + 1 = pre.length + (i1 + 1) := by omega
      rw [he, ← List.drop_drop, List.drop_left]
      congr 1
      omega
    have hsegB : segB (pre ++ g) (i2 + pre.length) = segB g i2 := by
      rw [segB, segB]
      have he : i2 + pre.length + 1 = pre.length + (i2 + 1) := by omega
      rw [he, ← List.drop_drop, List.drop_left]
    have hhd : headerOf (pre ++ g) (i1 + pre.length) = headerOf g i1 := by
      rw [headerOf, headerOf, List.get?_eq_getElem?, List.get?_eq_getElem?,
        List.getElem?_append_right (by omega)]
      have he : i1 + pre.length - pre.length = i1 := by omega
      rw [he]
    have hpm : preMerge (pre ++ g) (i1 + pre.length) (i2 + pre.length) =
        preMerge g i1 i2 := by
      rw [preMerge, preMerge, hsegA, hsegB]
    simp only [splitMerge, hsegA, hsegB, hhd, hpm]

/-- Witness for claim C9 with a one-row non-marker prefix. -/
theorem claim9_witness :
    markerIndices ([[Cell.str "junk"]] ++
        [[Cell.str "S/N"], [Cell.str "a"], [Cell.str "S/N"], [Cell.str "b"]]) "S/N" =
      (markerIndices [[Cell.str "S/N"], [Cell.str "a"], [Cell.str "S/N"],
        [Cell.str "b"]] "S/N").map (· + ([[Cell.str "junk"]] : Grid).length) ∧
    processTables ([[Cell.str "junk"]] ++
        [[Cell.str "S/N"], [Cell.str "a"], [Cell.str "S/N"], [Cell.str "b"]]) "S/N" =
      processTables [[Cell.str "S/N"], [Cell.str "a"], [Cell.str "S/N"],
        [Cell.str "b"]] "S/N" :=
  claim9_prefix_discarded [[Cell.str "junk"]]
    [[Cell.str "S/N"], [Cell.str "a"], [Cell.str "S/N"], [Cell.str "b"]] "S/N"
    (by decide)

end NCC
